import Mathlib

/-! Gostwear backend: the route handlers of `server.js`.

A shallow embedding of the Express handlers of `src/server.js` and of the CORS
origin callback, with the properties of the flat-file record store that the
handlers realise.

Modelling conventions.

* `JVal` is the set of JavaScript values that `JSON.parse` produces; `undefined`
  is `none` of `Option JVal`.  Numbers are exact integers, as the ids written by
  the code (`Date.now()` timestamps) are.  A numeral that JavaScript rounds, or
  that overflows to `Infinity` and is written back as `null` by
  `JSON.stringify`, has no counterpart here; the properties that compare a value
  taken from a request are therefore stated for strings, booleans and `null`.
* The register handler runs synchronously from its first statement to its last:
  calls that arrive together are served one after another, in some order
  (`serveRegisters`).
* A backing file is described by what `fs.existsSync` and
  `JSON.parse(fs.readFileSync(file, "utf-8"))` observe of it (`File`).
  `fs.writeFileSync(file, JSON.stringify(v, null, 2))` is taken to succeed and
  leaves a file that parses to `v`.
* A handler that throws outside a `try` block is answered by Express's default
  error handler; this is the reply `Reply.uncaught`.
-/

namespace Gostwear

/-- JavaScript values obtained from `JSON.parse`.  An object is the list of its
own properties in property order.  A number is an exact integer: fractions and
the `Infinity` of an overflowing numeral are not represented. -/
inductive JVal where
  | null
  | bool (b : Bool)
  | num (n : Int)
  | str (s : String)
  | arr (xs : List JVal)
  | obj (kvs : List (String × JVal))

namespace JVal

mutual
/-- Structural equality of two JSON values is decidable. -/
def decEqVal : (a b : JVal) → Decidable (a = b)
  | null, null => isTrue rfl
  | bool a, bool b =>
    if h : a = b then isTrue (congrArg bool h) else isFalse (fun e => h (bool.inj e))
  | num a, num b =>
    if h : a = b then isTrue (congrArg num h) else isFalse (fun e => h (num.inj e))
  | str a, str b =>
    if h : a = b then isTrue (congrArg str h) else isFalse (fun e => h (str.inj e))
  | arr a, arr b =>
    match decEqList a b with
    | isTrue h => isTrue (congrArg arr h)
    | isFalse h => isFalse (fun e => h (arr.inj e))
  | obj a, obj b =>
    match decEqFields a b with
    | isTrue h => isTrue (congrArg obj h)
    | isFalse h => isFalse (fun e => h (obj.inj e))
  | null, bool _ | null, num _ | null, str _ | null, arr _ | null, obj _
  | bool _, null | bool _, num _ | bool _, str _ | bool _, arr _ | bool _, obj _
  | num _, null | num _, bool _ | num _, str _ | num _, arr _ | num _, obj _
  | str _, null | str _, bool _ | str _, num _ | str _, arr _ | str _, obj _
  | arr _, null | arr _, bool _ | arr _, num _ | arr _, str _ | arr _, obj _
  | obj _, null | obj _, bool _ | obj _, num _ | obj _, str _ | obj _, arr _ =>
    isFalse (fun e => JVal.noConfusion e)
/-- Structural equality of two arrays of JSON values is decidable. -/
def decEqList : (a b : List JVal) → Decidable (a = b)
  | [], [] => isTrue rfl
  | [], _ :: _ => isFalse (fun e => List.noConfusion e)
  | _ :: _, [] => isFalse (fun e => List.noConfusion e)
  | x :: xs, y :: ys =>
    match decEqVal x y, decEqList xs ys with
    | isTrue h, isTrue hs => isTrue (by rw [h, hs])
    | isFalse h, _ => isFalse (fun e => h (List.cons.inj e).1)
    | _, isFalse hs => isFalse (fun e => hs (List.cons.inj e).2)
/-- Structural equality of two property lists is decidable. -/
def decEqFields : (a b : List (String × JVal)) → Decidable (a = b)
  | [], [] => isTrue rfl
  | [], _ :: _ => isFalse (fun e => List.noConfusion e)
  | _ :: _, [] => isFalse (fun e => List.noConfusion e)
  | (k, x) :: xs, (l, y) :: ys =>
    if hk : k = l then
      match decEqVal x y, decEqFields xs ys with
      | isTrue h, isTrue hs => isTrue (by rw [hk, h, hs])
      | isFalse h, _ => isFalse (fun e => h (Prod.mk.inj (List.cons.inj e).1).2)
      | _, isFalse hs => isFalse (fun e => hs (List.cons.inj e).2)
    else isFalse (fun e => hk (Prod.mk.inj (List.cons.inj e).1).1)
end

instance : DecidableEq JVal := decEqVal

/-- The value of property `k` of a non-null value, `none` for `undefined`.  Only
objects carry the properties the handlers read (`id`, `name`, `email`,
`password`); on an array, string, number or boolean they are `undefined`. -/
def field : JVal → String → Option JVal
  | obj kvs, k => List.lookup k kvs
  | _, _ => none

/-- A record is a JSON object. -/
def isRecord : JVal → Bool
  | obj _ => true
  | _ => false

/-- Strings, booleans and `null`: the values that `===` compares by value and that
`JSON.stringify` followed by `JSON.parse` gives back unchanged. -/
def isPlain : JVal → Bool
  | null => true
  | bool _ => true
  | str _ => true
  | _ => false

end JVal

open JVal

/-- What a handler can throw. -/
inductive Thrown where
  /-- A `TypeError`: a property of `null` or `undefined` is read, or a value that
  is not a function is called. -/
  | typeError
  /-- An error of `fs.readFileSync` or a `SyntaxError` of `JSON.parse`. -/
  | readError
  deriving DecidableEq

/-- Property read `v.k`: reading a property of `undefined` or `null` throws a
`TypeError`. -/
def member : Option JVal → String → Except Thrown (Option JVal)
  | none, _ => .error .typeError
  | some .null, _ => .error .typeError
  | some v, k => .ok (v.field k)

/-- JavaScript truthiness, as tested by `!x` and `if (x)`. -/
def truthy : Option JVal → Bool
  | none => false
  | some .null => false
  | some (.bool b) => b
  | some (.num n) => n != 0
  | some (.str s) => s != ""
  | some (.arr _) => true
  | some (.obj _) => true

/-- Strict equality `a === b` of a value read from a file and a value read from
the request.  Primitives compare by value; two objects or arrays are equal only
when they are the same reference, which a parsed file and a parsed request never
share. -/
def strictEquals : Option JVal → Option JVal → Bool
  | none, none => true
  | some .null, some .null => true
  | some (.bool a), some (.bool b) => a == b
  | some (.num a), some (.num b) => a == b
  | some (.str a), some (.str b) => a == b
  | _, _ => false

/-- The callback loop of `Array.prototype.find`: the first element on which the
callback is truthy, `undefined` when there is none; a throwing callback aborts
the scan. -/
def arrayFind (p : JVal → Except Thrown Bool) : List JVal → Except Thrown (Option JVal)
  | [] => .ok none
  | x :: xs =>
    match p x with
    | .error e => .error e
    | .ok true => .ok (some x)
    | .ok false => arrayFind p xs

/-- Method call `v.find(p)`: only arrays have a `find` method. -/
def callFind (v : JVal) (p : JVal → Except Thrown Bool) : Except Thrown (Option JVal) :=
  match v with
  | .arr xs => arrayFind p xs
  | _ => .error .typeError

/-- Method call `v.push(x)`, returning the array after the push. -/
def callPush (v : JVal) (x : JVal) : Except Thrown JVal :=
  match v with
  | .arr xs => .ok (.arr (xs ++ [x]))
  | _ => .error .typeError

/-- An object literal as it is serialised: properties whose value is `undefined`
are left out by `JSON.stringify`. -/
def objectLiteral (props : List (String × Option JVal)) : JVal :=
  .obj (props.filterMap fun kv => kv.2.map fun v => (kv.1, v))

/-- The observable state of one backing file. -/
inductive File where
  /-- There is no file at the path. -/
  | missing
  /-- The file exists, and reading it or parsing its text as JSON throws. -/
  | unparsable
  /-- The file exists and its text parses to `v`. -/
  | content (v : JVal)
  deriving DecidableEq

/-- Model of `fs.existsSync(file)`. -/
def existsSync : File → Bool
  | .missing => false
  | _ => true

/-- Model of `JSON.parse(fs.readFileSync(file, "utf-8"))`: throws when the file is
missing or when its text is not JSON. -/
def readJson : File → Except Thrown JVal
  | .missing => .error .readError
  | .unparsable => .error .readError
  | .content v => .ok v

/-- Model of `fs.writeFileSync(file, JSON.stringify(v, null, 2))`. -/
def writeJson (v : JVal) : File := .content v

/-- What the client receives. -/
inductive Reply where
  /-- The reply `res.status(status).json(body)`; `res.json(body)` has status 200. -/
  | json (status : Nat) (body : JVal)
  /-- The handler threw `e` and did not catch it. -/
  | uncaught (e : Thrown)
  deriving DecidableEq

/-- The body written by `res.json` for `{ error: msg }`. -/
def errorBody (msg : String) : JVal := .obj [("error", .str msg)]

/-- The body written by `res.json` for `{ message: msg }`. -/
def messageBody (msg : String) : JVal := .obj [("message", .str msg)]

/-! ## CORS origin callback (lines 20-42) -/

/-- The origins listed in `allowedOrigins`. -/
def allowedOrigins : List String :=
  ["http://localhost:5500", "https://gostwear-frontend.vercel.app"]

/-- Outcome of the `origin` callback: `callback(null, true)` or
`callback(new Error(message))`. -/
inductive CorsDecision where
  | allow
  | deny (message : String)
  deriving DecidableEq

/-- An attempt of the pattern `\.vercel\.app$` at the start of `s`: the literal
characters, then the end of input. -/
def matchHere (pat s : List Char) : Bool := s == pat

/-- Unanchored search of `RegExp.prototype.test`: the attempt is made at every
start position, from left to right. -/
def regexTest (pat : List Char) : List Char → Bool
  | [] => matchHere pat []
  | c :: cs => matchHere pat (c :: cs) || regexTest pat cs

/-- The test `/\.vercel\.app$/.test(origin)`. -/
def isVercelPreview (origin : String) : Bool :=
  regexTest ".vercel.app".data origin.data

/-- The `origin` function passed to `cors`; `none` is a request without an Origin
header. -/
def corsOrigin (origin : Option String) : CorsDecision :=
  match origin with
  | none => .allow
  | some o =>
    if o == "" then .allow
    else if allowedOrigins.contains o || isVercelPreview o then .allow
    else .deny "Not allowed by CORS"

/-! ## Products API (lines 50-73) -/

/-- Handler of `GET /api/products`. -/
def getProducts (productsFile : File) : Reply :=
  if !existsSync productsFile then
    .json 404 (errorBody "Products file not found")
  else
    match readJson productsFile with
    | .ok products => .json 200 products
    | .error _ => .json 500 (errorBody "Failed to load products")

/-- The callback `(p) => p.id === req.params.id`. -/
def idMatches (id : String) (p : JVal) : Except Thrown Bool :=
  match member (some p) "id" with
  | .error e => .error e
  | .ok v => .ok (strictEquals v (some (.str id)))

/-- Handler of `GET /api/products/:id`; `id` is `req.params.id`, always a string. -/
def getProductById (productsFile : File) (id : String) : Reply :=
  match readJson productsFile >>= fun products => callFind products (idMatches id) with
  | .error _ => .json 500 (errorBody "Error loading product data")
  | .ok none => .json 404 (errorBody "Product not found")
  | .ok (some product) =>
    if !truthy (some product) then .json 404 (errorBody "Product not found")
    else .json 200 product

/-! ## Register (lines 76-93) -/

/-- The callback `(u) => u.email === email`. -/
def emailMatches (email : Option JVal) (u : JVal) : Except Thrown Bool :=
  match member (some u) "email" with
  | .error e => .error e
  | .ok v => .ok (strictEquals v email)

/-- The object `{ id: Date.now(), name, email, password }`. -/
def newUser (now : Int) (name email password : Option JVal) : JVal :=
  objectLiteral
    [("id", some (.num now)), ("name", name), ("email", email), ("password", password)]

/-- The statements `let users = []; if (fs.existsSync(usersFile)) users =
JSON.parse(fs.readFileSync(usersFile, "utf-8"));` of the register handler. -/
def loadUsers (usersFile : File) : Except Thrown JVal :=
  if existsSync usersFile then readJson usersFile else .ok (.arr [])

/-- The statements of the register handler; the result is the reply and the
users file after the call. -/
def registerSteps (usersFile : File) (now : Int) (body : Option JVal) :
    Except Thrown (Reply × File) := do
  let name ← member body "name"
  let email ← member body "email"
  let password ← member body "password"
  if !truthy name || !truthy email || !truthy password then
    pure (.json 400 (errorBody "All fields are required"), usersFile)
  else do
    let users ← loadUsers usersFile
    let found ← callFind users (emailMatches email)
    if truthy found then
      pure (.json 400 (errorBody "User already exists"), usersFile)
    else do
      let users ← callPush users (newUser now name email password)
      pure (.json 200 (messageBody "Registration successful"), writeJson users)

/-- Handler of `POST /api/register`: `now` is the value of `Date.now()`, `body` is
`req.body`.  The handler has no `try`: an exception is answered by Express and
happens before the only write, so the file is unchanged. -/
def postRegister (usersFile : File) (now : Int) (body : Option JVal) : Reply × File :=
  match registerSteps usersFile now body with
  | .ok r => r
  | .error e => (.uncaught e, usersFile)

/-! ## Login (lines 96-111) -/

/-- The callback `(u) => u.email === email && u.password === password`. -/
def credentialsMatch (email password : Option JVal) (u : JVal) : Except Thrown Bool :=
  match member (some u) "email" with
  | .error e => .error e
  | .ok v =>
    if strictEquals v email then
      match member (some u) "password" with
      | .error e => .error e
      | .ok w => .ok (strictEquals w password)
    else .ok false

/-- The statements of the login handler. -/
def loginSteps (usersFile : File) (body : Option JVal) : Except Thrown Reply := do
  let email ← member body "email"
  let password ← member body "password"
  if !truthy email || !truthy password then
    pure (.json 400 (errorBody "All fields are required"))
  else if !existsSync usersFile then
    pure (.json 400 (errorBody "No users found"))
  else do
    let users ← readJson usersFile
    let user ← callFind users (credentialsMatch email password)
    if !truthy user then
      pure (.json 401 (errorBody "Invalid credentials"))
    else
      pure (.json 200 (objectLiteral [("message", some (.str "Login successful")), ("user", user)]))

/-- Handler of `POST /api/login`; it has no `try`. -/
def postLogin (usersFile : File) (body : Option JVal) : Reply :=
  match loginSteps usersFile body with
  | .ok r => r
  | .error e => .uncaught e

/-! ## Vocabulary of the properties -/

/-- The users collection a handler loads: a missing file counts as the empty
sequence, a file holding a JSON array as its elements. -/
def persisted : File → Option (List JVal)
  | .missing => some []
  | .content (.arr xs) => some xs
  | _ => none

/-- The reply of a successful registration. -/
def registered : Reply := .json 200 (messageBody "Registration successful")

/-- A user record `{ id, name, email, password }` with string fields. -/
def userRecord (id : Int) (name email password : String) : JVal :=
  .obj [("id", .num id), ("name", .str name), ("email", .str email), ("password", .str password)]

/-- Register requests served one after another, each with its own timestamp: the
replies in order and the users file at the end. -/
def serveRegisters (usersFile : File) : List (Int × Option JVal) → List Reply × File
  | [] => ([], usersFile)
  | req :: rest =>
    let step := postRegister usersFile req.1 req.2
    let tail := serveRegisters step.2 rest
    (step.1 :: tail.1, tail.2)


/-- The ids of the records of a collection, in stored order (`none` where a
record has no `id`). -/
def ids (U : List JVal) : List (Option JVal) := U.map fun u => u.field "id"

/-- The emails of the records of a collection, in stored order. -/
def emails (U : List JVal) : List (Option JVal) := U.map fun u => u.field "email"

/-- The record has both the given email and the given password. -/
def hasCredentials (email password : String) (u : JVal) : Bool :=
  decide (u.field "email" = some (.str email) ∧ u.field "password" = some (.str password))

/-- The reply `{ message: "Login successful", user }` of a successful login. -/
def loggedIn (user : JVal) : Reply :=
  .json 200 (.obj [("message", .str "Login successful"), ("user", user)])

/-- The textual form of an id, as it appears in the request path. -/
def textualId : JVal → String
  | .num n => toString n
  | .str s => s
  | _ => ""

/-- The content is a JSON array of objects each containing an `id`. -/
def isKeyedArray : JVal → Bool
  | .arr xs => xs.all fun x => x.isRecord && (x.field "id").isSome
  | _ => false

/-- The `email` of the request body is absent or is a string, a boolean or `null`,
not a number, an object or an array. -/
def emailIsPlain (body : Option JVal) : Bool :=
  match body with
  | none => true
  | some b =>
    match b.field "email" with
    | none => true
    | some e => e.isPlain

/-- One register call: the timestamp the clock returns for it and the three
string fields of its body. -/
structure RegisterCall where
  now : Int
  name : String
  email : String
  password : String
  deriving DecidableEq

/-- The request body `{ name, email, password }` of a register call. -/
def RegisterCall.body (c : RegisterCall) : Option JVal :=
  some (.obj [("name", .str c.name), ("email", .str c.email), ("password", .str c.password)])

/-- The record a successful register call stores. -/
def RegisterCall.record (c : RegisterCall) : JVal :=
  userRecord c.now c.name c.email c.password

/-! ## Auxiliary facts -/

theorem member_of_ne_null (v : JVal) (k : String) (h : v ≠ .null) :
    member (some v) k = .ok (v.field k) := by
  cases v <;> first | rfl | exact absurd rfl h

theorem ne_null_of_isRecord (v : JVal) (h : v.isRecord = true) : v ≠ .null := by
  cases v <;> simp [JVal.isRecord] at h ⊢

theorem ne_null_of_field (v : JVal) (k : String) (w : JVal) (h : v.field k = some w) :
    v ≠ .null := by
  cases v <;> simp [JVal.field] at h ⊢

theorem strictEquals_str (v : Option JVal) (s : String) :
    strictEquals v (some (.str s)) = true ↔ v = some (.str s) := by
  rcases v with _ | v
  · simp [strictEquals]
  · cases v <;> simp [strictEquals]

theorem truthy_str (s : String) : truthy (some (.str s)) = true ↔ s ≠ "" := by
  simp [truthy]

theorem arrayFind_eq_find (p : JVal → Except Thrown Bool) (q : JVal → Bool) (xs : List JVal)
    (h : ∀ x ∈ xs, p x = .ok (q x)) : arrayFind p xs = .ok (xs.find? q) := by
  induction xs with
  | nil => rfl
  | cons x xs ih =>
    have hx := h x (List.mem_cons_self x xs)
    have ih := ih (fun y hy => h y (List.mem_cons_of_mem x hy))
    cases hq : q x
    · rw [arrayFind, hx, hq, List.find?_cons, hq]; exact ih
    · rw [arrayFind, hx, hq, List.find?_cons, hq]

theorem regexTest_iff_suffix (pat s : List Char) : regexTest pat s = true ↔ pat <:+ s := by
  induction s with
  | nil =>
    simp only [regexTest, matchHere, beq_iff_eq, List.suffix_nil]
    exact eq_comm
  | cons c cs ih =>
    simp only [regexTest, matchHere, Bool.or_eq_true, ih, List.suffix_cons_iff, beq_iff_eq]
    constructor
    · rintro (h | h)
      · exact Or.inl h.symm
      · exact Or.inr h
    · rintro (h | h)
      · exact Or.inl h.symm
      · exact Or.inr h

/-- C9: the CORS origin callback accepts an origin exactly when it is absent or
empty, is one of the two listed origins, or ends with `.vercel.app`; any other
origin is rejected with the error "Not allowed by CORS". -/
theorem corsOrigin_allow_iff (origin : Option String) :
    (corsOrigin origin = .allow ↔
      (origin = none ∨ origin = some "" ∨ origin = some "http://localhost:5500" ∨
        origin = some "https://gostwear-frontend.vercel.app" ∨
        ∃ s, origin = some s ∧ ".vercel.app".data <:+ s.data)) ∧
    (corsOrigin origin = .allow ∨ corsOrigin origin = .deny "Not allowed by CORS") := by
  rcases origin with _ | o
  · simp [corsOrigin]
  · by_cases h0 : o = ""
    · subst h0; simp [corsOrigin]
    · by_cases h1 : (allowedOrigins.contains o || isVercelPreview o) = true
      · have : corsOrigin (some o) = .allow := by
          simp only [corsOrigin, beq_iff_eq, h0, if_false, h1, if_true]
        refine ⟨⟨fun _ => ?_, fun _ => this⟩, Or.inl this⟩
        simp only [Bool.or_eq_true, allowedOrigins, List.contains_cons, List.contains_nil,
          Bool.or_false, beq_iff_eq, isVercelPreview, regexTest_iff_suffix] at h1
        rcases h1 with (h | h) | h
        · exact Or.inr (Or.inr (Or.inl (by rw [h])))
        · exact Or.inr (Or.inr (Or.inr (Or.inl (by rw [h]))))
        · exact Or.inr (Or.inr (Or.inr (Or.inr ⟨o, rfl, h⟩)))
      · have hd : corsOrigin (some o) = .deny "Not allowed by CORS" := by
          simp only [corsOrigin, beq_iff_eq, h0, if_false, h1]
          rfl
        refine ⟨⟨fun h => ?_, fun h => ?_⟩, Or.inr hd⟩
        · rw [hd] at h; cases h
        · exfalso; apply h1
          simp only [Bool.or_eq_true, allowedOrigins, List.contains_cons, List.contains_nil,
            Bool.or_false, beq_iff_eq, isVercelPreview, regexTest_iff_suffix]
          rcases h with h | h | h | h | ⟨s, hs, h⟩
          · cases h
          · exact absurd (Option.some.inj h) h0
          · exact Or.inl (Or.inl (Option.some.inj h))
          · exact Or.inl (Or.inr (Option.some.inj h))
          · cases hs; exact Or.inr h


theorem load_of_persisted (f : File) (U : List JVal) (h : persisted f = some U) :
    loadUsers f = .ok (.arr U) := by
  cases f with
  | missing => simp [persisted] at h; subst h; rfl
  | unparsable => simp [persisted] at h
  | content v =>
    cases v <;> simp [persisted] at h
    subst h; rfl

theorem emailMatches_record (e : Option JVal) (u : JVal) (h : u.isRecord = true) :
    emailMatches e u = .ok (strictEquals (u.field "email") e) := by
  simp only [emailMatches, member_of_ne_null u "email" (ne_null_of_isRecord u h)]

theorem find_email (U : List JVal) (e : Option JVal) (hrec : ∀ u ∈ U, u.isRecord = true) :
    callFind (.arr U) (emailMatches e)
      = .ok (U.find? fun u => strictEquals (u.field "email") e) :=
  arrayFind_eq_find _ _ U (fun u hu => emailMatches_record e u (hrec u hu))

theorem postRegister_fresh (usersFile : File) (U : List JVal) (t : Int) (body : JVal)
    (name email password : String)
    (hU : persisted usersFile = some U)
    (hrec : ∀ u ∈ U, u.isRecord = true)
    (hname : body.field "name" = some (.str name)) (hn : name ≠ "")
    (hemail : body.field "email" = some (.str email)) (he : email ≠ "")
    (hpassword : body.field "password" = some (.str password)) (hp : password ≠ "")
    (hfresh : ∀ u ∈ U, u.field "email" ≠ some (.str email)) :
    postRegister usersFile t (some body)
      = (registered, .content (.arr (U ++ [userRecord t name email password]))) := by
  have hb : body ≠ .null := ne_null_of_field body "name" _ hname
  have hfind : (U.find? fun u => strictEquals (u.field "email") (some (.str email))) = none := by
    rw [List.find?_eq_none]
    intro u hu
    rw [strictEquals_str]
    exact hfresh u hu
  have hsteps : registerSteps usersFile t (some body)
      = .ok (registered, .content (.arr (U ++ [userRecord t name email password]))) := by
    simp only [registerSteps, member_of_ne_null body _ hb, hname, hemail, hpassword,
      bind, Except.bind, truthy, load_of_persisted usersFile U hU, find_email U _ hrec, hfind]
    simp [hn, he, hp, callPush, newUser, objectLiteral, userRecord, registered, writeJson, pure,
      Except.pure]
  simp [postRegister, hsteps]

/-- C1: on a users collection `U` of records (a missing file counting as the empty
sequence), a register request with non-empty name, email and password whose email
is the email of no record of `U` is answered "Registration successful", and the
collection loaded afterwards is `U` followed by the new record
`{id: t, name, email, password}`. -/
theorem register_appends (usersFile : File) (U : List JVal) (t : Int) (body : JVal)
    (name email password : String)
    (hU : persisted usersFile = some U)
    (hrec : ∀ u ∈ U, u.isRecord = true)
    (hname : body.field "name" = some (.str name)) (hn : name ≠ "")
    (hemail : body.field "email" = some (.str email)) (he : email ≠ "")
    (hpassword : body.field "password" = some (.str password)) (hp : password ≠ "")
    (hfresh : ∀ u ∈ U, u.field "email" ≠ some (.str email)) :
    (postRegister usersFile t (some body)).1 = registered ∧
    persisted (postRegister usersFile t (some body)).2
      = some (U ++ [userRecord t name email password]) := by
  have hpost := postRegister_fresh usersFile U t body name email password hU hrec hname hn
    hemail he hpassword hp hfresh
  constructor
  · rw [hpost]
  · rw [hpost]
    rfl

/-- C1 on the collection `[Bob]` and a request of Ann at timestamp 1700000000000. -/
theorem register_appends_witness :
    persisted (.content (.arr [userRecord 1 "Bob" "b@x.com" "q"]))
      = some [userRecord 1 "Bob" "b@x.com" "q"] ∧
    (postRegister (.content (.arr [userRecord 1 "Bob" "b@x.com" "q"])) 1700000000000
      (some (.obj [("name", .str "Ann"), ("email", .str "a@x.com"), ("password", .str "p")]))).1
      = registered ∧
    persisted (postRegister (.content (.arr [userRecord 1 "Bob" "b@x.com" "q"])) 1700000000000
      (some (.obj [("name", .str "Ann"), ("email", .str "a@x.com"), ("password", .str "p")]))).2
      = some ([userRecord 1 "Bob" "b@x.com" "q"] ++ [userRecord 1700000000000 "Ann" "a@x.com" "p"]) :=
  ⟨by decide,
    register_appends (.content (.arr [userRecord 1 "Bob" "b@x.com" "q"]))
      [userRecord 1 "Bob" "b@x.com" "q"] 1700000000000
      (.obj [("name", .str "Ann"), ("email", .str "a@x.com"), ("password", .str "p")])
      "Ann" "a@x.com" "p" (by decide) (by decide) (by decide) (by decide) (by decide) (by decide)
      (by decide) (by decide) (by decide)⟩

theorem truthy_of_isRecord (u : JVal) (h : u.isRecord = true) : truthy (some u) = true := by
  cases u <;> simp [JVal.isRecord, truthy] at h ⊢

/-- C2: on a users collection `U` of records, a register request with non-empty
name, email and password whose email is the email of some record of `U` is answered
400 "User already exists" and the users file, hence the persisted collection, is
left as it was. -/
theorem register_existing_email (usersFile : File) (U : List JVal) (t : Int) (body : JVal)
    (name email password : String)
    (hU : persisted usersFile = some U)
    (hrec : ∀ u ∈ U, u.isRecord = true)
    (hname : body.field "name" = some (.str name)) (hn : name ≠ "")
    (hemail : body.field "email" = some (.str email)) (he : email ≠ "")
    (hpassword : body.field "password" = some (.str password)) (hp : password ≠ "")
    (hdup : ∃ u ∈ U, u.field "email" = some (.str email)) :
    postRegister usersFile t (some body)
      = (.json 400 (errorBody "User already exists"), usersFile) ∧
    persisted (postRegister usersFile t (some body)).2 = some U := by
  have hb : body ≠ .null := ne_null_of_field body "name" _ hname
  obtain ⟨u, hu, hue⟩ := hdup
  have hsome : (U.find? fun u => strictEquals (u.field "email") (some (.str email))).isSome := by
    rw [List.find?_isSome]
    exact ⟨u, hu, (strictEquals_str _ _).2 hue⟩
  obtain ⟨v, hv⟩ := Option.isSome_iff_exists.1 hsome
  have hvt : truthy (some v) = true := truthy_of_isRecord v (hrec v (List.mem_of_find?_eq_some hv))
  have hsteps : registerSteps usersFile t (some body)
      = .ok (.json 400 (errorBody "User already exists"), usersFile) := by
    simp only [registerSteps, member_of_ne_null body _ hb, hname, hemail, hpassword,
      bind, Except.bind, load_of_persisted usersFile U hU, find_email U _ hrec, hv, hvt]
    simp [truthy, hn, he, hp, pure, Except.pure]
  have hpost : postRegister usersFile t (some body)
      = (.json 400 (errorBody "User already exists"), usersFile) := by
    simp [postRegister, hsteps]
  exact ⟨hpost, by rw [hpost]; exact hU⟩

/-- C2 on the collection `[Bob]` and a request that reuses Bob's email. -/
theorem register_existing_email_witness :
    (∃ u ∈ [userRecord 1 "Bob" "b@x.com" "q"], u.field "email" = some (.str "b@x.com")) ∧
    postRegister (.content (.arr [userRecord 1 "Bob" "b@x.com" "q"])) 2
      (some (.obj [("name", .str "Rob"), ("email", .str "b@x.com"), ("password", .str "p")]))
      = (.json 400 (errorBody "User already exists"),
          .content (.arr [userRecord 1 "Bob" "b@x.com" "q"])) ∧
    persisted (postRegister (.content (.arr [userRecord 1 "Bob" "b@x.com" "q"])) 2
      (some (.obj [("name", .str "Rob"), ("email", .str "b@x.com"), ("password", .str "p")]))).2
      = some [userRecord 1 "Bob" "b@x.com" "q"] :=
  ⟨by decide,
    register_existing_email (.content (.arr [userRecord 1 "Bob" "b@x.com" "q"]))
      [userRecord 1 "Bob" "b@x.com" "q"] 2
      (.obj [("name", .str "Rob"), ("email", .str "b@x.com"), ("password", .str "p")])
      "Rob" "b@x.com" "p" (by decide) (by decide) (by decide) (by decide) (by decide) (by decide)
      (by decide) (by decide) (by decide)⟩

theorem credentialsMatch_record (email password : String) (u : JVal) (h : u.isRecord = true) :
    credentialsMatch (some (.str email)) (some (.str password)) u
      = .ok (hasCredentials email password u) := by
  have hu := ne_null_of_isRecord u h
  simp only [credentialsMatch, member_of_ne_null u _ hu, hasCredentials]
  by_cases h1 : u.field "email" = some (.str email)
  · have e1 : strictEquals (u.field "email") (some (.str email)) = true :=
      (strictEquals_str _ _).2 h1
    by_cases h2 : u.field "password" = some (.str password)
    · have e2 : strictEquals (u.field "password") (some (.str password)) = true :=
        (strictEquals_str _ _).2 h2
      simp only [e1, e2, if_true]
      simp [h1, h2]
    · have : strictEquals (u.field "password") (some (.str password)) = false := by
        rw [← Bool.not_eq_true, strictEquals_str]; exact h2
      simp only [e1, this, if_true]
      simp [h1, h2]
  · have : strictEquals (u.field "email") (some (.str email)) = false := by
      rw [← Bool.not_eq_true, strictEquals_str]; exact h1
    simp only [this]
    simp [h1]

theorem postLogin_present (U : List JVal) (body : JVal) (email password : String)
    (hrec : ∀ u ∈ U, u.isRecord = true)
    (hemail : body.field "email" = some (.str email)) (he : email ≠ "")
    (hpassword : body.field "password" = some (.str password)) (hp : password ≠ "") :
    postLogin (.content (.arr U)) (some body)
      = match U.find? (hasCredentials email password) with
        | some u => loggedIn u
        | none => .json 401 (errorBody "Invalid credentials") := by
  have hb : body ≠ .null := ne_null_of_field body "email" _ hemail
  have hfind : callFind (.arr U) (credentialsMatch (some (.str email)) (some (.str password)))
      = .ok (U.find? (hasCredentials email password)) :=
    arrayFind_eq_find _ _ U (fun u hu => credentialsMatch_record email password u (hrec u hu))
  cases hf : U.find? (hasCredentials email password) with
  | none =>
    simp only [postLogin, loginSteps, member_of_ne_null body _ hb, hemail, hpassword, bind,
      Except.bind, existsSync, readJson, hfind, hf]
    simp [truthy, he, hp, pure, Except.pure]
  | some v =>
    have hvt : truthy (some v) = true :=
      truthy_of_isRecord v (hrec v (List.mem_of_find?_eq_some hf))
    simp only [postLogin, loginSteps, member_of_ne_null body _ hb, hemail, hpassword, bind,
      Except.bind, existsSync, readJson, hfind, hf, hvt]
    simp [truthy, he, hp, pure, Except.pure, objectLiteral, loggedIn]

/-- C8, amended: when the users file exists and holds the collection `U` of
records, a login request with non-empty email and password succeeds exactly when some record of `U` has both that email and
that password; the user returned is then the first such record in stored order, in
full (password included); otherwise the reply is 401 "Invalid credentials". -/
theorem login_first_match (U : List JVal) (body : JVal) (email password : String)
    (hrec : ∀ u ∈ U, u.isRecord = true)
    (hemail : body.field "email" = some (.str email)) (he : email ≠ "")
    (hpassword : body.field "password" = some (.str password)) (hp : password ≠ "") :
    ((∃ user, postLogin (.content (.arr U)) (some body) = loggedIn user) ↔
      ∃ u ∈ U, u.field "email" = some (.str email) ∧
        u.field "password" = some (.str password)) ∧
    (∀ user, U.find? (hasCredentials email password) = some user →
      postLogin (.content (.arr U)) (some body) = loggedIn user) ∧
    ((¬ ∃ u ∈ U, u.field "email" = some (.str email) ∧
        u.field "password" = some (.str password)) →
      postLogin (.content (.arr U)) (some body)
        = .json 401 (errorBody "Invalid credentials")) := by
  have hpost := postLogin_present U body email password hrec hemail he hpassword hp
  have hex : (∃ u ∈ U, u.field "email" = some (.str email) ∧
      u.field "password" = some (.str password)) ↔
      (U.find? (hasCredentials email password)).isSome := by
    rw [List.find?_isSome]
    simp [hasCredentials]
  cases hf : U.find? (hasCredentials email password) with
  | none =>
    rw [hf] at hpost hex
    simp only [Option.isSome_none, Bool.false_eq_true, iff_false] at hex
    refine ⟨⟨fun ⟨user, h⟩ => ?_, fun h => absurd h hex⟩, fun user h => (by cases h), fun _ => hpost⟩
    rw [hpost] at h
    simp [loggedIn, errorBody] at h
  | some v =>
    rw [hf] at hpost hex
    simp only [Option.isSome_some, iff_true] at hex
    refine ⟨⟨fun _ => hex, fun _ => ⟨v, hpost⟩⟩, fun user h => ?_, fun h => absurd hex h⟩
    cases h
    exact hpost

/-- C8, amended, on the collection `[Bob, Ann]` and Ann's credentials. -/
theorem login_first_match_witness :
    postLogin (.content (.arr [userRecord 1 "Bob" "b@x.com" "q", userRecord 2 "Ann" "a@x.com" "p"]))
        (some (.obj [("email", .str "a@x.com"), ("password", .str "p")]))
      = loggedIn (userRecord 2 "Ann" "a@x.com" "p") :=
  (login_first_match [userRecord 1 "Bob" "b@x.com" "q", userRecord 2 "Ann" "a@x.com" "p"]
    (.obj [("email", .str "a@x.com"), ("password", .str "p")]) "a@x.com" "p"
    (by decide) (by decide) (by decide) (by decide) (by decide)).2.1
    (userRecord 2 "Ann" "a@x.com" "p") (by decide)

/-- C8, as stated, fails: with no users file the collection is the empty sequence,
no record has the email and the password of the request, and the reply is 400
"No users found", not 401 "Invalid credentials". -/
theorem login_without_users_file :
    persisted .missing = some [] ∧
    ([] : List JVal).find? (hasCredentials "a@x.com" "p") = none ∧
    postLogin .missing (some (.obj [("email", .str "a@x.com"), ("password", .str "p")]))
      = .json 400 (errorBody "No users found") ∧
    postLogin .missing (some (.obj [("email", .str "a@x.com"), ("password", .str "p")]))
      ≠ .json 401 (errorBody "Invalid credentials") := by
  decide

/-! ## Missing files (C4) -/

/-- C4, as stated, fails: with a missing file `GET /api/products`,
`GET /api/products/:id` and `POST /api/login` do not answer as they do on a file
holding the empty array. -/
theorem missing_file_differs :
    getProducts .missing ≠ getProducts (.content (.arr [])) ∧
    getProductById .missing "1" ≠ getProductById (.content (.arr [])) "1" ∧
    postLogin .missing (some (.obj [("email", .str "a@x.com"), ("password", .str "p")]))
      ≠ postLogin (.content (.arr []))
          (some (.obj [("email", .str "a@x.com"), ("password", .str "p")])) := by
  decide

theorem registerSteps_missing (t : Int) (body : Option JVal) :
    (registerSteps .missing t body = registerSteps (.content (.arr [])) t body) ∨
    (∃ r, registerSteps .missing t body = .ok (r, .missing) ∧
      registerSteps (.content (.arr [])) t body = .ok (r, .content (.arr []))) := by
  simp only [registerSteps, bind, Except.bind, loadUsers, existsSync, readJson, pure, Except.pure]
  cases member body "name" with
  | error e => exact Or.inl rfl
  | ok name =>
    cases member body "email" with
    | error e => exact Or.inl rfl
    | ok email =>
      cases member body "password" with
      | error e => exact Or.inl rfl
      | ok password =>
        by_cases hreq : (!truthy name || !truthy email || !truthy password) = true
        · simp only [hreq, if_true]
          exact Or.inr ⟨_, rfl, rfl⟩
        · simp only [hreq, if_false, Bool.false_eq_true]
          exact Or.inl rfl

/-- C4, amended: `POST /api/register` treats a missing users file as the empty
sequence (same reply and same persisted collection as on a file holding `[]`),
while the other handlers answer a missing file on their own path:
`GET /api/products` with 404 "Products file not found", `GET /api/products/:id`
with 500 "Error loading product data", and `POST /api/login` with non-empty email
and password with 400 "No users found". -/
theorem missing_file_replies (t : Int) (body : Option JVal) (id : String)
    (loginBody : JVal) (email password : String)
    (hemail : loginBody.field "email" = some (.str email)) (he : email ≠ "")
    (hpassword : loginBody.field "password" = some (.str password)) (hp : password ≠ "") :
    (postRegister .missing t body).1 = (postRegister (.content (.arr [])) t body).1 ∧
    persisted (postRegister .missing t body).2
      = persisted (postRegister (.content (.arr [])) t body).2 ∧
    getProducts .missing = .json 404 (errorBody "Products file not found") ∧
    getProductById .missing id = .json 500 (errorBody "Error loading product data") ∧
    postLogin .missing (some loginBody) = .json 400 (errorBody "No users found") := by
  have hb : loginBody ≠ .null := ne_null_of_field loginBody "email" _ hemail
  refine ⟨?_, ?_, rfl, rfl, ?_⟩
  · rcases registerSteps_missing t body with h | ⟨r, h1, h2⟩
    · simp only [postRegister, h]
      cases registerSteps (.content (.arr [])) t body <;> rfl
    · simp only [postRegister, h1, h2]
  · rcases registerSteps_missing t body with h | ⟨r, h1, h2⟩
    · simp only [postRegister, h]
      cases registerSteps (.content (.arr [])) t body <;> rfl
    · simp only [postRegister, h1, h2]; rfl
  · simp only [postLogin, loginSteps, member_of_ne_null loginBody _ hb, hemail, hpassword, bind,
      Except.bind, existsSync]
    simp [truthy, he, hp, pure, Except.pure]

/-- C4, amended, on a registration of Ann and a login of Ann with no users file. -/
theorem missing_file_replies_witness :
    (postRegister .missing 7 (some (.obj [("name", .str "Ann"), ("email", .str "a@x.com"),
        ("password", .str "p")]))).1
      = (postRegister (.content (.arr [])) 7 (some (.obj [("name", .str "Ann"),
          ("email", .str "a@x.com"), ("password", .str "p")]))).1 ∧
    postLogin .missing (some (.obj [("email", .str "a@x.com"), ("password", .str "p")]))
      = .json 400 (errorBody "No users found") :=
  have h := missing_file_replies 7
    (some (.obj [("name", .str "Ann"), ("email", .str "a@x.com"), ("password", .str "p")])) "1"
    (.obj [("email", .str "a@x.com"), ("password", .str "p")]) "a@x.com" "p"
    (by decide) (by decide) (by decide) (by decide)
  ⟨h.1, h.2.2.2.2⟩

/-! ## Products (C5, C6) -/

/-- C5 at a product with a numeric id: the collection holds the single product
`{id: 1, name: "Hoodie"}` and the request path carries the textual form `1` of
its id, yet the reply is 404 "Product not found". -/
theorem numeric_id_not_found :
    textualId (.num 1) = "1" ∧
    getProductById (.content (.arr [.obj [("id", .num 1), ("name", .str "Hoodie")]]))
        (textualId (.num 1))
      = .json 404 (errorBody "Product not found") := by
  decide

theorem idMatches_record (id : String) (p : JVal) (h : p.isRecord = true) :
    idMatches id p = .ok (strictEquals (p.field "id") (some (.str id))) := by
  simp only [idMatches, member_of_ne_null p "id" (ne_null_of_isRecord p h)]

/-- A stored product whose id is a string is returned by `GET /api/products/:id`
when the path carries that string, provided the ids of the collection are
pairwise distinct. -/
theorem string_id_found (U : List JVal) (r : JVal) (id : String)
    (hrec : ∀ u ∈ U, u.isRecord = true) (huniq : (ids U).Nodup)
    (hr : r ∈ U) (hid : r.field "id" = some (.str id)) :
    getProductById (.content (.arr U)) (textualId (.str id)) = .json 200 r := by
  have hfind : callFind (.arr U) (idMatches id)
      = .ok (U.find? fun p => strictEquals (p.field "id") (some (.str id))) :=
    arrayFind_eq_find _ _ U (fun u hu => idMatches_record id u (hrec u hu))
  have hsome : (U.find? fun p => strictEquals (p.field "id") (some (.str id))).isSome := by
    rw [List.find?_isSome]
    exact ⟨r, hr, (strictEquals_str _ _).2 hid⟩
  obtain ⟨v, hv⟩ := Option.isSome_iff_exists.1 hsome
  have hvU : v ∈ U := List.mem_of_find?_eq_some hv
  have hq := List.find?_some hv
  have hvid : v.field "id" = some (.str id) := (strictEquals_str _ _).1 hq
  have hvr : v = r :=
    List.inj_on_of_nodup_map huniq hvU hr (hvid.trans hid.symm)
  have hvt : truthy (some v) = true := truthy_of_isRecord v (hrec v hvU)
  simp only [getProductById, textualId, readJson, bind, Except.bind, hfind, hv, hvt]
  simp [hvr]

/-- C6, as stated, fails: a products file holding the JSON object `{}` (valid JSON,
not an array) and one holding an array whose element has no `id` are both returned
with status 200. -/
theorem unvalidated_products_served :
    isKeyedArray (.obj []) = false ∧
    getProducts (.content (.obj [])) = .json 200 (.obj []) ∧
    isKeyedArray (.arr [.obj [("name", .str "Hoodie")]]) = false ∧
    getProducts (.content (.arr [.obj [("name", .str "Hoodie")]]))
      = .json 200 (.arr [.obj [("name", .str "Hoodie")]]) := by
  decide

/-- C6, amended: `GET /api/products` fails with 500 "Failed to load products"
when the products file exists and cannot be read or parsed as JSON; every content
that parses as JSON is returned unchanged with status 200, whatever its shape. -/
theorem getProducts_parse_only (v : JVal) :
    getProducts .unparsable = .json 500 (errorBody "Failed to load products") ∧
    getProducts (.content v) = .json 200 v :=
  ⟨rfl, rfl⟩

/-! ## The outcomes of one registration -/

theorem some_of_truthy (v : Option JVal) (h : truthy v = true) : ∃ w, v = some w := by
  cases v with
  | none => simp [truthy] at h
  | some w => exact ⟨w, rfl⟩

theorem postRegister_cases (usersFile : File) (t : Int) (body : Option JVal) :
    ((postRegister usersFile t body).2 = usersFile ∧
      (postRegister usersFile t body).1 ≠ registered) ∨
    ∃ xs name email password found,
      loadUsers usersFile = .ok (.arr xs) ∧
      member body "email" = .ok (some email) ∧ truthy (some email) = true ∧
      arrayFind (emailMatches (some email)) xs = .ok found ∧ truthy found = false ∧
      postRegister usersFile t body
        = (registered, .content (.arr (xs ++
            [.obj [("id", .num t), ("name", name), ("email", email), ("password", password)]]))) := by
  unfold postRegister registerSteps
  cases hn : member body "name" with
  | error e => exact Or.inl ⟨rfl, by simp [bind, Except.bind, registered]⟩
  | ok name =>
    cases he : member body "email" with
    | error e => exact Or.inl ⟨rfl, by simp [bind, Except.bind, registered]⟩
    | ok email =>
      cases hp : member body "password" with
      | error e => exact Or.inl ⟨rfl, by simp [bind, Except.bind, registered]⟩
      | ok password =>
        by_cases hreq : (!truthy name || !truthy email || !truthy password) = true
        · exact Or.inl ⟨by simp [bind, Except.bind, hreq, pure, Except.pure],
            by simp [bind, Except.bind, hreq, pure, Except.pure, registered]⟩
        · simp only [Bool.or_eq_true, Bool.not_eq_true', not_or, Bool.not_eq_false] at hreq
          obtain ⟨⟨htn, hte⟩, htp⟩ := hreq
          obtain ⟨n, rfl⟩ := some_of_truthy name htn
          obtain ⟨e, rfl⟩ := some_of_truthy email hte
          obtain ⟨p, rfl⟩ := some_of_truthy password htp
          cases hl : loadUsers usersFile with
          | error e => exact Or.inl ⟨by simp [bind, Except.bind, htn, hte, htp],
              by simp [bind, Except.bind, htn, hte, htp, registered]⟩
          | ok users =>
            cases hf : callFind users (emailMatches (some e)) with
            | error e => exact Or.inl ⟨by simp [bind, Except.bind, htn, hte, htp, hf],
                by simp [bind, Except.bind, htn, hte, htp, hf, registered]⟩
            | ok found =>
              by_cases hfound : truthy found = true
              · exact Or.inl ⟨by simp [bind, Except.bind, htn, hte, htp, hf, hfound, pure,
                    Except.pure],
                  by simp [bind, Except.bind, htn, hte, htp, hf, hfound, pure, Except.pure,
                    registered]⟩
              · cases users with
                | arr xs =>
                  refine Or.inr ⟨xs, n, e, p, found, rfl, rfl, hte, hf, by simpa using hfound, ?_⟩
                  simp [bind, Except.bind, htn, hte, htp, hf, hfound, pure, Except.pure,
                    callPush, newUser, objectLiteral, writeJson, registered]
                | _ => simp [callFind] at hf

/-! ## Id uniqueness (C3) -/

/-- C3, as stated, fails: on the collection `[{id: 5, ...}]`, whose ids are pairwise
distinct, a registration at timestamp 5 with a new email is answered
"Registration successful" (no duplicate-key error) and the persisted collection
then holds two records with id 5. -/
theorem duplicate_id_registered :
    (ids [userRecord 5 "Bob" "b@x.com" "q"]).Nodup ∧
    postRegister (.content (.arr [userRecord 5 "Bob" "b@x.com" "q"])) 5
        (some (.obj [("name", .str "Ann"), ("email", .str "a@x.com"), ("password", .str "p")]))
      = (registered,
          .content (.arr [userRecord 5 "Bob" "b@x.com" "q", userRecord 5 "Ann" "a@x.com" "p"])) ∧
    ¬ (ids [userRecord 5 "Bob" "b@x.com" "q", userRecord 5 "Ann" "a@x.com" "p"]).Nodup := by
  decide

/-- C3, amended: the register handler never compares ids.  On a users collection
`U` with pairwise distinct ids, a registration either is not successful and leaves
the users file as it was, or is successful and appends one record whose id is the
timestamp `t`; the collection persisted afterwards then has pairwise distinct ids
exactly when `t` is not already the id of a record of `U`. -/
theorem register_ids (usersFile : File) (U : List JVal) (t : Int) (body : Option JVal)
    (hU : persisted usersFile = some U) (huniq : (ids U).Nodup) :
    ((postRegister usersFile t body).2 = usersFile ∧
      (postRegister usersFile t body).1 ≠ registered) ∨
    ∃ r, r.field "id" = some (.num t) ∧
      postRegister usersFile t body = (registered, .content (.arr (U ++ [r]))) ∧
      ((ids (U ++ [r])).Nodup ↔ some (.num t) ∉ ids U) := by
  rcases postRegister_cases usersFile t body with h | ⟨xs, n, e, p, found, hl, _, _, _, _, hpost⟩
  · exact Or.inl h
  · have hxs : xs = U := by
      have := load_of_persisted usersFile U hU
      rw [hl] at this
      exact JVal.arr.inj (Except.ok.inj this)
    subst hxs
    refine Or.inr ⟨_, ?_, hpost, ?_⟩
    · simp [JVal.field, List.lookup]
    · simp only [ids, List.map_append, List.map_cons, List.map_nil] at huniq ⊢
      have hid : (JVal.obj [("id", .num t), ("name", n), ("email", e), ("password", p)]).field "id"
          = some (.num t) := by simp [JVal.field, List.lookup]
      rw [hid, List.nodup_append]
      simp [huniq]

/-- C3, amended, on the collection `[{id: 5, ...}]` and a registration at
timestamp 6. -/
theorem register_ids_witness :
    (ids [userRecord 5 "Bob" "b@x.com" "q"]).Nodup ∧
    (((postRegister (.content (.arr [userRecord 5 "Bob" "b@x.com" "q"])) 6
        (some (.obj [("name", .str "Ann"), ("email", .str "a@x.com"), ("password", .str "p")]))).2
        = .content (.arr [userRecord 5 "Bob" "b@x.com" "q"]) ∧
      (postRegister (.content (.arr [userRecord 5 "Bob" "b@x.com" "q"])) 6
        (some (.obj [("name", .str "Ann"), ("email", .str "a@x.com"), ("password", .str "p")]))).1
        ≠ registered) ∨
    ∃ r, r.field "id" = some (.num 6) ∧
      postRegister (.content (.arr [userRecord 5 "Bob" "b@x.com" "q"])) 6
        (some (.obj [("name", .str "Ann"), ("email", .str "a@x.com"), ("password", .str "p")]))
        = (registered, .content (.arr ([userRecord 5 "Bob" "b@x.com" "q"] ++ [r]))) ∧
      ((ids ([userRecord 5 "Bob" "b@x.com" "q"] ++ [r])).Nodup ↔
        some (.num 6) ∉ ids [userRecord 5 "Bob" "b@x.com" "q"])) :=
  ⟨by decide,
    register_ids (.content (.arr [userRecord 5 "Bob" "b@x.com" "q"]))
      [userRecord 5 "Bob" "b@x.com" "q"] 6
      (some (.obj [("name", .str "Ann"), ("email", .str "a@x.com"), ("password", .str "p")]))
      (by decide) (by decide)⟩

/-! ## Email uniqueness over a run of registrations (C10) -/

theorem strictEquals_plain (a : Option JVal) (e : JVal) (h : e.isPlain = true) :
    strictEquals a (some e) = true ↔ a = some e := by
  rcases a with _ | a
  · simp [strictEquals]
  · cases e <;> cases a <;> simp [strictEquals, JVal.isPlain] at h ⊢

theorem plain_of_member (body : Option JVal) (e : JVal)
    (hm : member body "email" = .ok (some e)) (hp : emailIsPlain body = true) :
    e.isPlain = true := by
  rcases body with _ | b
  · simp [member] at hm
  · by_cases hb : b = .null
    · subst hb; simp [member] at hm
    · rw [member_of_ne_null b _ hb] at hm
      have hf : b.field "email" = some e := Except.ok.inj hm
      simpa [emailIsPlain, hf] using hp

theorem absent_of_not_found (U : List JVal) (e : JVal) (found : Option JVal)
    (hrec : ∀ u ∈ U, u.isRecord = true) (he : e.isPlain = true)
    (hf : arrayFind (emailMatches (some e)) U = .ok found) (hfound : truthy found = false) :
    some e ∉ emails U := by
  have hfind : arrayFind (emailMatches (some e)) U
      = .ok (U.find? fun u => strictEquals (u.field "email") (some e)) := find_email U _ hrec
  rw [hfind] at hf
  have hf := Except.ok.inj hf
  have hnone : found = none := by
    rcases found with _ | v
    · rfl
    · have := truthy_of_isRecord v (hrec v (List.mem_of_find?_eq_some hf))
      rw [this] at hfound
      cases hfound
  rw [hnone, List.find?_eq_none] at hf
  intro hmem
  simp only [emails, List.mem_map] at hmem
  obtain ⟨u, hu, hue⟩ := hmem
  exact hf u hu ((strictEquals_plain _ e he).2 hue)

theorem serveRegisters_inv (reqs : List (Int × Option JVal)) :
    ∀ (usersFile : File) (U : List JVal), persisted usersFile = some U →
      (∀ u ∈ U, u.isRecord = true) →
      ∃ V, persisted (serveRegisters usersFile reqs).2 = some V ∧
        V.length = U.length + (serveRegisters usersFile reqs).1.count registered ∧
        ((∀ req ∈ reqs, emailIsPlain req.2 = true) → (emails U).Nodup →
          (emails V).Nodup) := by
  induction reqs with
  | nil =>
    intro f U hU _
    exact ⟨U, hU, by simp [serveRegisters], fun _ h => h⟩
  | cons req rest ih =>
    intro f U hU hrec
    rcases postRegister_cases f req.1 req.2 with
      ⟨hfile, hreply⟩ | ⟨xs, n, e, p, found, hl, hm, _, hf, hfound, hpost⟩
    · obtain ⟨V, hV, hlen, hnodup⟩ := ih f U hU hrec
      refine ⟨V, ?_, ?_, ?_⟩
      · simp only [serveRegisters, hfile]; exact hV
      · simp only [serveRegisters, hfile]
        rw [List.count_cons_of_ne hreply.symm]
        exact hlen
      · intro hprim
        exact hnodup (fun r hr => hprim r (List.mem_cons_of_mem req hr))
    · have hxs : xs = U := by
        have := load_of_persisted f U hU
        rw [hl] at this
        exact JVal.arr.inj (Except.ok.inj this)
      subst hxs
      have hrec2 : ∀ u ∈ xs ++ [JVal.obj [("id", .num req.1), ("name", n), ("email", e),
          ("password", p)]], u.isRecord = true := by
        intro u hu
        rcases List.mem_append.1 hu with h | h
        · exact hrec u h
        · rw [List.mem_singleton.1 h]; rfl
      obtain ⟨V, hV, hlen, hnodup⟩ := ih _ _ (by rfl : persisted (.content (.arr (xs ++
        [JVal.obj [("id", .num req.1), ("name", n), ("email", e), ("password", p)]]))) = _) hrec2
      refine ⟨V, ?_, ?_, ?_⟩
      · simp only [serveRegisters, hpost]; exact hV
      · simp only [serveRegisters, hpost, List.count_cons_self]
        rw [hlen, List.length_append, List.length_singleton]
        omega
      · intro hprim hU2
        apply hnodup (fun r hr => hprim r (List.mem_cons_of_mem req hr))
        have he : e.isPlain = true :=
          plain_of_member req.2 e hm (hprim req (List.mem_cons_self req rest))
        have habs := absent_of_not_found xs e found hrec he hf hfound
        have hemail : (JVal.obj [("id", .num req.1), ("name", n), ("email", e),
            ("password", p)]).field "email" = some e := by
          simp [JVal.field, List.lookup]
        simp only [emails, List.map_append, List.map_cons, List.map_nil, hemail] at habs ⊢
        rw [List.nodup_append]
        refine ⟨hU2, List.nodup_singleton _, ?_⟩
        intro a ha hb
        rw [List.mem_singleton.1 hb] at ha
        exact habs ha

/-- C10, as stated, fails: two register requests whose email is the JSON object `{}`
are both answered "Registration successful", and the persisted collection then holds
two records with the same email. -/
theorem object_email_registered_twice :
    serveRegisters .missing
        [(1, some (.obj [("name", .str "Ann"), ("email", .obj []), ("password", .str "p")])),
         (2, some (.obj [("name", .str "Ann"), ("email", .obj []), ("password", .str "p")]))]
      = ([registered, registered],
          .content (.arr
            [.obj [("id", .num 1), ("name", .str "Ann"), ("email", .obj []), ("password", .str "p")],
             .obj [("id", .num 2), ("name", .str "Ann"), ("email", .obj []), ("password", .str "p")]])) ∧
    ¬ (emails
        [.obj [("id", .num 1), ("name", .str "Ann"), ("email", .obj []), ("password", .str "p")],
         .obj [("id", .num 2), ("name", .str "Ann"), ("email", .obj []), ("password", .str "p")]]).Nodup := by
  decide

/-- C10, amended: starting from a missing or empty users file, after any finite
sequence of register requests served one after another (arbitrary bodies and
timestamps) the number of persisted records equals the number of requests answered
"Registration successful"; and when the email of every request is absent or is a
string, a boolean or `null` (not a number, an object or an array), no two persisted
records have the same email. -/
theorem registered_emails_distinct (usersFile : File) (reqs : List (Int × Option JVal))
    (hstart : usersFile = .missing ∨ usersFile = .content (.arr [])) :
    ∃ U, persisted (serveRegisters usersFile reqs).2 = some U ∧
      U.length = (serveRegisters usersFile reqs).1.count registered ∧
      ((∀ req ∈ reqs, emailIsPlain req.2 = true) → (emails U).Nodup) := by
  have h0 : persisted usersFile = some [] := by
    rcases hstart with h | h <;> subst h <;> rfl
  obtain ⟨V, hV, hlen, hnodup⟩ := serveRegisters_inv reqs usersFile [] h0 (by simp)
  exact ⟨V, hV, by simpa using hlen, fun hprim => hnodup hprim (by simp [emails])⟩

/-- C10, amended, on three registrations of which the second reuses the email of
the first: two records are persisted and their emails differ. -/
theorem registered_emails_distinct_witness :
    ∃ U, persisted (serveRegisters .missing
        [(1, some (.obj [("name", .str "Ann"), ("email", .str "a@x.com"), ("password", .str "p")])),
         (2, some (.obj [("name", .str "Nan"), ("email", .str "a@x.com"), ("password", .str "q")])),
         (3, some (.obj [("name", .str "Bob"), ("email", .str "b@x.com"), ("password", .str "r")]))]).2
        = some U ∧ U.length = 2 ∧ (emails U).Nodup :=
  match registered_emails_distinct .missing
    [(1, some (.obj [("name", .str "Ann"), ("email", .str "a@x.com"), ("password", .str "p")])),
     (2, some (.obj [("name", .str "Nan"), ("email", .str "a@x.com"), ("password", .str "q")])),
     (3, some (.obj [("name", .str "Bob"), ("email", .str "b@x.com"), ("password", .str "r")]))]
    (Or.inl rfl) with
  | ⟨U, h1, h2, h3⟩ => ⟨U, h1, h2.trans (by decide), h3 (by decide)⟩

/-! ## Registrations served in any order -/

theorem serveRegisters_fresh (calls : List RegisterCall) :
    ∀ (usersFile : File) (U : List JVal), persisted usersFile = some U →
      (∀ u ∈ U, u.isRecord = true) →
      (∀ c ∈ calls, c.name ≠ "" ∧ c.email ≠ "" ∧ c.password ≠ "") →
      (∀ u ∈ U, ∀ c ∈ calls, u.field "email" ≠ some (.str c.email)) →
      (calls.map fun c => c.email).Nodup →
      (serveRegisters usersFile (calls.map fun c => (c.now, c.body))).1
          = List.replicate calls.length registered ∧
        persisted (serveRegisters usersFile (calls.map fun c => (c.now, c.body))).2
          = some (U ++ calls.map fun c => c.record) := by
  induction calls with
  | nil =>
    intro f U hU _ _ _ _
    simpa [serveRegisters] using hU
  | cons c rest ih =>
    intro f U hU hrec hne hfresh hnodup
    obtain ⟨hn, he, hp⟩ := hne c (List.mem_cons_self c rest)
    have hpost := postRegister_fresh f U c.now
      (.obj [("name", .str c.name), ("email", .str c.email), ("password", .str c.password)])
      c.name c.email c.password hU hrec (by simp [JVal.field, List.lookup]) hn
      (by simp [JVal.field, List.lookup]) he (by simp [JVal.field, List.lookup]) hp
      (fun u hu => hfresh u hu c (List.mem_cons_self c rest))
    rw [List.map_cons, List.nodup_cons] at hnodup
    have hrec2 : ∀ u ∈ U ++ [c.record], u.isRecord = true := by
      intro u hu
      rcases List.mem_append.1 hu with h | h
      · exact hrec u h
      · rw [List.mem_singleton.1 h]; rfl
    have hfresh2 : ∀ u ∈ U ++ [c.record], ∀ d ∈ rest, u.field "email" ≠ some (.str d.email) := by
      intro u hu d hd
      rcases List.mem_append.1 hu with h | h
      · exact hfresh u h d (List.mem_cons_of_mem c hd)
      · rw [List.mem_singleton.1 h]
        have : c.record.field "email" = some (.str c.email) := by
          simp [RegisterCall.record, userRecord, JVal.field, List.lookup]
        rw [this]
        intro heq
        have hcd : c.email = d.email := JVal.str.inj (Option.some.inj heq)
        exact hnodup.1 (List.mem_map.2 ⟨d, hd, hcd.symm⟩)
    obtain ⟨h1, h2⟩ := ih (.content (.arr (U ++ [c.record]))) (U ++ [c.record]) rfl hrec2
      (fun d hd => hne d (List.mem_cons_of_mem c hd)) hfresh2 hnodup.2
    have hstep : postRegister f c.now c.body = (registered, .content (.arr (U ++ [c.record]))) :=
      hpost
    constructor
    · simp only [List.map_cons, serveRegisters, hstep, h1, List.length_cons, List.replicate_succ]
    · simp only [List.map_cons, serveRegisters, hstep, h2, List.append_assoc, List.singleton_append]

/-- Register calls with non-empty fields and pairwise distinct emails, served one
after another from a missing or empty users file, are all answered "Registration
successful" and the persisted collection holds exactly their records, in the order
served.  The hypotheses do not depend on the order, so this holds for every order
in which the calls are served. -/
theorem serveRegisters_keeps_all (usersFile : File) (calls : List RegisterCall)
    (hstart : usersFile = .missing ∨ usersFile = .content (.arr []))
    (hne : ∀ c ∈ calls, c.name ≠ "" ∧ c.email ≠ "" ∧ c.password ≠ "")
    (hnodup : (calls.map fun c => c.email).Nodup) :
    (serveRegisters usersFile (calls.map fun c => (c.now, c.body))).1
        = List.replicate calls.length registered ∧
      persisted (serveRegisters usersFile (calls.map fun c => (c.now, c.body))).2
        = some (calls.map fun c => c.record) := by
  have h0 : persisted usersFile = some [] := by
    rcases hstart with h | h <;> subst h <;> rfl
  have := serveRegisters_fresh calls usersFile [] h0 (by simp) hne (by simp) hnodup
  simpa using this

theorem ids_records (calls : List RegisterCall) :
    ids (calls.map fun c => c.record) = calls.map fun c => some (JVal.num c.now) := by
  simp [ids, RegisterCall.record, userRecord, JVal.field, List.lookup]

/-- C7: the register handler is synchronous, so `N` calls that arrive together are
served to completion one at a time, in some order `order` of the calls.  For every
such order of `N` calls with non-empty fields, pairwise distinct ids (timestamps)
and pairwise distinct emails, issued against a missing or empty users collection,
every call is answered "Registration successful" and the persisted collection holds
exactly `N` records, among them the record and the id of every call, with no id
twice: no record is lost. -/
theorem concurrent_registers_kept (usersFile : File) (calls order : List RegisterCall)
    (hstart : usersFile = .missing ∨ usersFile = .content (.arr []))
    (horder : order.Perm calls)
    (hne : ∀ c ∈ calls, c.name ≠ "" ∧ c.email ≠ "" ∧ c.password ≠ "")
    (hids : (calls.map fun c => c.now).Nodup)
    (hemails : (calls.map fun c => c.email).Nodup) :
    (serveRegisters usersFile (order.map fun c => (c.now, c.body))).1
        = List.replicate calls.length registered ∧
    ∃ U, persisted (serveRegisters usersFile (order.map fun c => (c.now, c.body))).2 = some U ∧
      U.length = calls.length ∧
      (∀ c ∈ calls, c.record ∈ U ∧ some (JVal.num c.now) ∈ ids U) ∧
      (ids U).Nodup := by
  have hne2 : ∀ c ∈ order, c.name ≠ "" ∧ c.email ≠ "" ∧ c.password ≠ "" :=
    fun c hc => hne c (horder.mem_iff.1 hc)
  have hemails2 : (order.map fun c => c.email).Nodup :=
    ((horder.map fun c => c.email).nodup_iff).2 hemails
  have hids2 : (order.map fun c => c.now).Nodup :=
    ((horder.map fun c => c.now).nodup_iff).2 hids
  obtain ⟨hreplies, hfile⟩ := serveRegisters_keeps_all usersFile order hstart hne2 hemails2
  refine ⟨by rw [hreplies, horder.length_eq], order.map (fun c => c.record), hfile, ?_, ?_, ?_⟩
  · rw [List.length_map, horder.length_eq]
  · intro c hc
    have hco : c ∈ order := horder.mem_iff.2 hc
    refine ⟨List.mem_map.2 ⟨c, hco, rfl⟩, ?_⟩
    rw [ids_records]
    exact List.mem_map.2 ⟨c, hco, rfl⟩
  · rw [ids_records]
    have hinj : Function.Injective (fun n : Int => some (JVal.num n)) := by
      intro a b hab
      exact JVal.num.inj (Option.some.inj hab)
    have := hids2.map hinj
    simpa [List.map_map, Function.comp] using this

/-- C7 on two calls (Ann at timestamp 1, Bob at timestamp 2) served with Bob first. -/
theorem concurrent_registers_kept_witness :
    (serveRegisters .missing
        ([RegisterCall.mk 2 "Bob" "b@x.com" "q", RegisterCall.mk 1 "Ann" "a@x.com" "p"].map
          fun c => (c.now, c.body))).1
      = List.replicate
          [RegisterCall.mk 1 "Ann" "a@x.com" "p", RegisterCall.mk 2 "Bob" "b@x.com" "q"].length
          registered ∧
    ∃ U, persisted (serveRegisters .missing
        ([RegisterCall.mk 2 "Bob" "b@x.com" "q", RegisterCall.mk 1 "Ann" "a@x.com" "p"].map
          fun c => (c.now, c.body))).2 = some U ∧
      U.length
        = [RegisterCall.mk 1 "Ann" "a@x.com" "p", RegisterCall.mk 2 "Bob" "b@x.com" "q"].length ∧
      (∀ c ∈ [RegisterCall.mk 1 "Ann" "a@x.com" "p", RegisterCall.mk 2 "Bob" "b@x.com" "q"],
        c.record ∈ U ∧ some (JVal.num c.now) ∈ ids U) ∧
      (ids U).Nodup :=
  concurrent_registers_kept .missing
    [RegisterCall.mk 1 "Ann" "a@x.com" "p", RegisterCall.mk 2 "Bob" "b@x.com" "q"]
    [RegisterCall.mk 2 "Bob" "b@x.com" "q", RegisterCall.mk 1 "Ann" "a@x.com" "p"]
    (Or.inl rfl) (List.Perm.swap _ _ _) (by decide) (by decide) (by decide)

end Gostwear
